import Mathlib

/-!
Shallow embedding of the AgentX browser-automation core
(`agentx/security.py`, `agentx/permissions.py`, `agentx/executor/*.py`,
`agentx/memory/vector_store.py`, `agentx/agents/*.py`) together with
theorems settling the behavioural claims about it.

Python strings are modelled as `List Char`, wall-clock floats as `ℚ`.
-/

namespace AgentX

/-- Python strings, modelled as lists of characters. -/
abbrev Str := List Char

/-- Coerce a Lean string literal to the model's string type. -/
def str (s : String) : Str := s.data

/-- `text.lower()` (ASCII-level model). -/
def lowerStr (s : Str) : Str := s.map Char.toLower

/-- Python `host.endswith(d)`. -/
def endswith (host d : Str) : Bool := decide (d <:+ host)

/-- Python `s.split(c)` on a single-character separator. -/
def splitOnChar (c : Char) : Str → List Str
  | [] => [[]]
  | a :: rest =>
    let r := splitOnChar c rest
    if a = c then [] :: r
    else
      match r with
      | [] => [[a]]
      | h :: t => (a :: h) :: t

/-- Characters that terminate the network-location part of a URL
(`urlparse` stops the netloc at `/`, `?` or `#`). -/
def netlocStop (c : Char) : Bool := c = '/' ∨ c = '?' ∨ c = '#'

/-- Valid characters of a URL scheme after the first letter
(`urlparse`: letters, digits, `+`, `-`, `.`). -/
def schemeChar (c : Char) : Bool := c.isAlphanum ∨ c = '+' ∨ c = '-' ∨ c = '.'

/-- Split `scheme:rest` off a URL the way `urllib.parse.urlparse` does:
the scheme is a leading alphabetic character followed by scheme
characters, up to the first `':'`; absent that, the scheme is empty. -/
def splitScheme (u : Str) : Str × Str :=
  match u with
  | [] => ([], [])
  | c :: _ =>
    if c.isAlpha then
      let pre := u.takeWhile (fun x => schemeChar x)
      let post := u.drop pre.length
      match post with
      | ':' :: rest => (pre, rest)
      | _ => ([], u)
    else ([], u)

/-- `urlparse(url).netloc`: after the scheme, a leading `//` introduces
the netloc, which runs to the first `/`, `?` or `#`; otherwise the
netloc is empty. -/
def netloc (u : Str) : Str :=
  let rest := (splitScheme u).2
  match rest with
  | '/' :: '/' :: tail => tail.takeWhile (fun c => !netlocStop c)
  | _ => []

/-- `urlparse(url).scheme` (lowercased by `urlparse`; inputs here are
already lower-case so the model lowercases too). -/
def urlScheme (u : Str) : Str := lowerStr (splitScheme u).1

/-! ### `agentx/security.py` — `TokenBucket` -/

/-- `TokenBucket` state: `capacity`, current `tokens`, `refill_rate`
(tokens per second) and `last_refill` wall-clock time. -/
structure TokenBucket where
  capacity : ℚ
  tokens : ℚ
  refill_rate : ℚ
  last_refill : ℚ
  deriving Repr, DecidableEq

/-- `TokenBucket(capacity, refill_rate_per_sec)` constructed at time
`now`: starts full. -/
def TokenBucket.mkAt (capacity refill_rate now : ℚ) : TokenBucket :=
  { capacity := capacity, tokens := capacity, refill_rate := refill_rate,
    last_refill := now }

/-- `TokenBucket.consume(tokens)` called at wall-clock time `now`:
lazily refills proportionally to elapsed time (clamped at capacity),
then consumes `req` tokens if at least that many are available. Returns
the Python function's boolean result and the updated bucket. -/
def TokenBucket.consume (b : TokenBucket) (now req : ℚ) : Bool × TokenBucket :=
  let elapsed := now - b.last_refill
  let refill := elapsed * b.refill_rate
  let b1 :=
    if 0 < refill then
      { b with tokens := min b.capacity (b.tokens + refill), last_refill := now }
    else b
  if req ≤ b1.tokens then (true, { b1 with tokens := b1.tokens - req })
  else (false, b1)

/-- The token count after the lazy refill step of a `consume` call at
time `now`, before any decrement. -/
def TokenBucket.refilledTokens (b : TokenBucket) (now : ℚ) : ℚ :=
  let refill := (now - b.last_refill) * b.refill_rate
  if 0 < refill then min b.capacity (b.tokens + refill) else b.tokens

/-- Run a sequence of `consume` calls, each given as a
`(wall-clock time, requested tokens)` pair; returns the final bucket. -/
def TokenBucket.consumeSeq (b : TokenBucket) : List (ℚ × ℚ) → TokenBucket
  | [] => b
  | (now, req) :: rest => ((b.consume now req).2).consumeSeq rest

/-! ### `agentx/security.py` — `SecurityManager` -/

/-- `SecurityManager` state: the configured domain allowlist, the
per-minute rate limit, and the per-origin bucket map (an association
list keyed by origin, insertion-ordered like a Python dict). -/
structure SecurityManager where
  allowed_domains : List Str
  rate_limit_per_min : ℕ
  buckets : List (Str × TokenBucket)
  deriving Repr, DecidableEq

/-- `SecurityManager.is_domain_allowed(url)`:
`any(host.endswith(d) for d in self.allowed_domains)` where
`host = urlparse(url).netloc`. -/
def SecurityManager.is_domain_allowed (sm : SecurityManager) (url : Str) : Bool :=
  let host := netloc url
  sm.allowed_domains.any (fun d => endswith host d)

/-- Does `pat` occur as an infix of `s`? (model of `re.search` on a
literal alternative). -/
def containsSub (s pat : Str) : Bool := decide (pat <:+: s)

/-- `SecurityManager.sanitize_input(s)`: `re.search` looks for any of
the four literal injection markers anywhere in the lowercased input; on
a hit every `<` and `>` character is removed, otherwise the input is
returned unchanged. -/
def sanitize_input (s : Str) : Str :=
  let l := lowerStr s
  if containsSub l (str "<script") ∨ containsSub l (str "javascript:")
      ∨ containsSub l (str "onerror=") ∨ containsSub l (str "onload=") then
    s.filter (fun c => ¬(c = '<' ∨ c = '>'))
  else s

/-- `SecurityManager._bucket_for(origin)`: look the origin's bucket up,
creating it (capacity `max 1 rate_limit_per_min`, refill rate
`capacity / 60` per second, full at creation time `now`) on first use.
Returns the bucket together with the updated manager. -/
def SecurityManager.bucket_for (sm : SecurityManager) (origin : Str) (now : ℚ) :
    TokenBucket × SecurityManager :=
  match sm.buckets.find? (fun p => p.1 = origin) with
  | some p => (p.2, sm)
  | none =>
    let cap : ℚ := (max 1 sm.rate_limit_per_min : ℕ)
    let b := TokenBucket.mkAt cap (cap / 60) now
    (b, { sm with buckets := sm.buckets ++ [(origin, b)] })

/-- Replace the stored bucket for `origin` (write-back after a
`consume`). -/
def SecurityManager.putBucket (sm : SecurityManager) (origin : Str)
    (b : TokenBucket) : SecurityManager :=
  { sm with
    buckets := sm.buckets.map (fun p => if p.1 = origin then (p.1, b) else p) }

/-- `SecurityManager.enforce_rate_limit(url)` at wall-clock time `now`:
keyed by the origin `scheme://netloc`, consumes one token from the
origin's (lazily created) bucket; returns the boolean result and the
updated manager. -/
def SecurityManager.enforce_rate_limit (sm : SecurityManager) (url : Str)
    (now : ℚ) : Bool × SecurityManager :=
  let origin := urlScheme url ++ str "://" ++ netloc url
  let (b, sm1) := sm.bucket_for origin now
  let (ok, b1) := b.consume now 1
  (ok, sm1.putBucket origin b1)

/-! ### `agentx/permissions.py` -/

/-- `PermissionPolicy` flags. -/
structure PermissionPolicy where
  allow_login : Bool
  allow_upload : Bool
  allow_off_allowlist : Bool
  auto_approve : Bool
  deriving Repr, DecidableEq

/-- `PermissionManager.check(action)`: `login`, `upload` and
`off-allowlist` consult the policy (or `auto_approve`); every other
action string is allowed unconditionally. -/
def PermissionManager.check (policy : PermissionPolicy) (action : Str) : Bool :=
  if action = str "login" then policy.allow_login ∨ policy.auto_approve
  else if action = str "upload" then policy.allow_upload ∨ policy.auto_approve
  else if action = str "off-allowlist" then
    policy.allow_off_allowlist ∨ policy.auto_approve
  else true

/-! ### `agentx/executor/selector_memory.py` -/

/-- A row of the `selectors` table. -/
structure SelRecord where
  host : Str
  action : Str
  label : Str
  selector : Str
  success_count : ℕ
  updated : ℚ
  deriving Repr, DecidableEq

/-- The `selectors` table, rows in rowid (insertion) order. -/
abbrev SelectorMemory := List SelRecord

/-- Does a row match the `WHERE host=? AND action=? AND label=?` filter
of `SelectorMemory.get`? -/
def selKeyMatch (h a l : Str) (r : SelRecord) : Bool :=
  decide (r.host = h ∧ r.action = a ∧ r.label = l)

/-- Does a row match the full
`WHERE host=? AND action=? AND label=? AND selector=?` filter of
`SelectorMemory.save_success`? -/
def selTupleMatch (h a l s : Str) (r : SelRecord) : Bool :=
  decide (r.host = h ∧ r.action = a ∧ r.label = l ∧ r.selector = s)

/-- The `ORDER BY success_count DESC, updated DESC` ordering: `r1` may
come before `r2`. -/
def SelBefore (r1 r2 : SelRecord) : Prop :=
  r2.success_count < r1.success_count ∨
    (r1.success_count = r2.success_count ∧ r2.updated ≤ r1.updated)

instance : DecidableRel SelBefore := fun r1 r2 => by
  unfold SelBefore; infer_instance

instance : IsTotal SelRecord SelBefore :=
  ⟨by
    intro x y
    unfold SelBefore
    rcases lt_trichotomy x.success_count y.success_count with h | h | h
    · right; left; exact h
    · rcases le_total x.updated y.updated with h' | h'
      · right; right; exact ⟨h.symm, h'⟩
      · left; right; exact ⟨h, h'⟩
    · left; left; exact h⟩

instance : IsTrans SelRecord SelBefore :=
  ⟨by
    intro x y z hxy hyz
    rcases hxy with h1 | ⟨h1, h1'⟩ <;> rcases hyz with h2 | ⟨h2, h2'⟩
    · left; omega
    · left; omega
    · left; omega
    · right; exact ⟨h1.trans h2, le_trans h2' h1'⟩⟩

/-- `SelectorMemory.get(host, action, label)`: the selectors of the
matching rows, `ORDER BY success_count DESC, updated DESC`. -/
def SelectorMemory.get (m : SelectorMemory) (h a l : Str) : List Str :=
  (List.insertionSort SelBefore (m.filter (selKeyMatch h a l))).map
    SelRecord.selector

/-- `SelectorMemory.save_success(host, action, label, selector)` at
wall-clock time `now`: the `SELECT ... fetchone()` finds the first
matching row in rowid order, whose count is bumped by one and whose
timestamp is refreshed; absent a match a fresh row with count 1 is
inserted (appended). -/
def SelectorMemory.save_success (m : SelectorMemory) (h a l s : Str)
    (now : ℚ) : SelectorMemory :=
  match m with
  | [] => [⟨h, a, l, s, 1, now⟩]
  | r :: rest =>
    if selTupleMatch h a l s r then
      { r with success_count := r.success_count + 1, updated := now } :: rest
    else r :: SelectorMemory.save_success rest h a l s now

/-! ### `agentx/executor/web_navigator.py` — `WebNavigator.goto` -/

/-- What a `goto` attempt can raise: the security `PermissionError`,
the rate-limit `RuntimeError`, or a navigation failure from
`page.goto`. -/
inductive GotoErr where
  | permission
  | rateLimit
  | nav
  deriving Repr, DecidableEq

/-- One execution of the `goto` body: allowlist check, then rate-limit
check (which mutates the bucket map), then the browser navigation
(outcome `navOk`). Returns the result, the updated security manager and
whether `page.goto` was invoked. -/
def goto_once (sm : SecurityManager) (url : Str) (now : ℚ) (navOk : Bool) :
    Except GotoErr Unit × SecurityManager × Bool :=
  if ¬sm.is_domain_allowed url then (.error .permission, sm, false)
  else
    let (ok, sm1) := sm.enforce_rate_limit url now
    if ¬ok then (.error .rateLimit, sm1, false)
    else if navOk then (.ok (), sm1, true)
    else (.error .nav, sm1, true)

instance : DecidableEq (Except GotoErr Unit) := fun a b =>
  match a, b with
  | .ok x, .ok y => isTrue (by cases x; cases y; rfl)
  | .error x, .error y =>
    if h : x = y then isTrue (by rw [h]) else
      isFalse (fun hc => h (by injection hc))
  | .ok _, .error _ => isFalse (fun hc => nomatch hc)
  | .error _, .ok _ => isFalse (fun hc => nomatch hc)

/-- Result of a `goto` call through the tenacity `retry` decorator. -/
structure GotoRun where
  result : Except GotoErr Unit
  sm : SecurityManager
  attempts : ℕ
  navCalls : ℕ
  deriving Repr, DecidableEq

/-- The tenacity loop: run the body; on success stop, on an exception
retry while attempts remain, re-raising the last exception after the
final attempt (`reraise=True, stop=stop_after_attempt(3)`). `times i`
is the wall-clock time of attempt `i`, `navOk i` the browser outcome of
attempt `i`. -/
def gotoGo (url : Str) (times : ℕ → ℚ) (navOk : ℕ → Bool) :
    ℕ → ℕ → SecurityManager → ℕ → GotoRun
  | 0, i, sm, acc => { result := .error .nav, sm := sm, attempts := i, navCalls := acc }
  | rem + 1, i, sm, acc =>
    let (res, sm1, invoked) := goto_once sm url (times i) (navOk i)
    let acc1 := if invoked then acc + 1 else acc
    match res with
    | .ok _ => { result := .ok (), sm := sm1, attempts := i + 1, navCalls := acc1 }
    | .error e =>
      if rem = 0 then
        { result := .error e, sm := sm1, attempts := i + 1, navCalls := acc1 }
      else gotoGo url times navOk rem (i + 1) sm1 acc1

/-- `WebNavigator.goto(url)`: the retried body, up to 3 attempts. -/
def WebNavigator.goto (sm : SecurityManager) (url : Str) (times : ℕ → ℚ)
    (navOk : ℕ → Bool) : GotoRun :=
  gotoGo url times navOk 3 0 sm 0

/-! ### `agentx/agents/orchestrator.py` — `MultiAgentRunner.run` -/

/-- `ValidatorAgent.validate(observation)`: rejects observations whose
lowercase form contains `error`, `timeout` or `not found`. -/
def ValidatorAgent.validate (obs : Str) : Bool :=
  ¬(containsSub (lowerStr obs) (str "error") ∨
    containsSub (lowerStr obs) (str "timeout") ∨
    containsSub (lowerStr obs) (str "not found"))

/-- The orchestrator's collaborators. Step routing
(`classify` + the four role agents) is abstracted into a single
`execute`, since every role is dispatched through the same
`agent._execute_step(nav, step)` call; `replanner` is
`planner.replan(goal, context, lastPlan, failureObservation)` with the
fixed goal and context folded in; `snapshot` is `nav.snapshot_dom()`;
`shouldStop idx` is the `run_manager.should_stop()` poll before step
`idx`. -/
structure OrchWorld where
  execute : Str → Except Str Str
  replanner : List Str → Str → List Str
  snapshot : Str
  shouldStop : ℕ → Bool

/-- The mutable locals of `MultiAgentRunner.run`, plus an `executed`
trace instrumenting which steps were dispatched to an agent. -/
structure RunState where
  planVar : List Str
  observations : List Str
  stepLog : List (ℕ × Str × Str)
  executed : List Str
  deriving Repr, DecidableEq

/-- The body of `for idx, step in enumerate(plan, start=1)`. The list
iterated over is the one `enumerate` captured when the loop started;
rebinding the local `plan` (as both replan branches do) does not change
it, so the recursion walks `remaining` — the rest of the original
enumeration — while only `planVar` is replaced. -/
def runLoop (w : OrchWorld) : List (ℕ × Str) → RunState → RunState
  | [], st => st
  | (idx, step) :: remaining, st =>
    if w.shouldStop idx then st
    else
      let st1 := { st with executed := st.executed ++ [step] }
      match w.execute step with
      | .ok obs =>
        let st2 := { st1 with
          observations := st1.observations ++ [obs],
          stepLog := st1.stepLog ++ [(idx, step, obs)] }
        if ¬ValidatorAgent.validate obs then
          runLoop w remaining { st2 with
            planVar := w.replanner st2.planVar
              (str "Validation failed: " ++ obs ++ str "\nDOM: "
                ++ w.snapshot.take 2000) }
        else runLoop w remaining st2
      | .error e =>
        runLoop w remaining { st1 with
          planVar := w.replanner st1.planVar
            (str "Error: " ++ e ++ str "\nDOM: " ++ w.snapshot.take 2000) }

/-- `enumerate(plan, start=1)`. -/
def enum1 (plan : List Str) : List (ℕ × Str) :=
  plan.enum.map (fun p => (p.1 + 1, p.2))

/-- `MultiAgentRunner.run` on an obtained plan: iterate the enumeration
of the original plan; the returned dict's `plan` entry is the final
value of the rebindable local. -/
def MultiAgentRunner.run (w : OrchWorld) (plan : List Str) : RunState :=
  runLoop w (enum1 plan) ⟨plan, [], [], []⟩

/-! ### `agentx/executor/web_navigator.py` — `click_best` / `type_best` -/

/-- `host = self.page.url.split('/')[2]` guarded by truthiness of the
url and an exception handler (an `IndexError` on short splits yields
`''`). -/
def hostOfPageUrl (u : Str) : Str :=
  if u = [] then [] else ((splitOnChar '/' u).drop 2).headD []

/-- Walk a candidate list with an attempt predicate: returns the
failures preceding the first success together with the successful
candidate, or `none` when every candidate fails. -/
def firstSuccess (f : Str → Bool) : List Str → Option (List Str × Str)
  | [] => none
  | s :: rest =>
    if f s then some ([], s)
    else
      match firstSuccess f rest with
      | some (t, w) => some (s :: t, w)
      | none => none

/-- The page behaviour `click_best` interacts with: whether each
primitive locator attempt succeeds, and the semantic-resolver answer
(`_semantic_candidate('click', query)`, which swallows its own
errors). -/
structure ClickPage where
  url : Str
  clickSel : Str → Bool
  clickRole : Str → Bool
  clickText : Str → Bool
  semantic : Str → Option Str

/-- The resolution stages of `click_best`, in source order. -/
inductive ClickStage where
  | memory (sel : Str)
  | css
  | role
  | semantic (cand : Str)
  | text
  deriving Repr, DecidableEq

/-- Is this a stage-1 (selector-memory) attempt? -/
def ClickStage.isMemory : ClickStage → Bool
  | .memory _ => true
  | _ => false

/-- How `click_best` returns: a successful stage, or the re-raised
final text-stage exception. -/
inductive ClickOutcome where
  | success (st : ClickStage)
  | raised
  deriving Repr, DecidableEq

/-- Result of a `click_best` call: its outcome, the selector store
after it, the primitive attempts it made in order, and the source's
`tried` accumulator (failed memory selectors, logged on total
failure). -/
structure ClickResult where
  outcome : ClickOutcome
  mem : SelectorMemory
  attempted : List ClickStage
  tried : List Str
  deriving Repr, DecidableEq

/-- The descriptor string `click_best` records for a success at each
stage (stage 1 records nothing). -/
def clickDescriptor (target : Str) : ClickStage → Str
  | .memory sel => sel
  | .css => target
  | .role => str "role=button,name=" ++ target
  | .semantic cand => str "semantic_text=" ++ cand
  | .text => str "text=" ++ target

/-- `WebNavigator.click_best(target)` at wall-clock time `now`:
memory selectors (up to 5) → CSS → role=button by name → semantic
candidate as a text locator → plain text locator; each stage's failure
is swallowed, a success at stage ≥ 2 is recorded in the selector store
(when the host is non-empty), and if the final text stage fails its
exception is re-raised. -/
def click_best (pg : ClickPage) (mem : SelectorMemory) (target : Str)
    (now : ℚ) : ClickResult :=
  let host := hostOfPageUrl pg.url
  let memSels :=
    if host ≠ [] then (SelectorMemory.get mem host (str "click") target).take 5
    else []
  match firstSuccess pg.clickSel memSels with
  | some (failed, sel) =>
    { outcome := .success (.memory sel), mem := mem,
      attempted := failed.map ClickStage.memory ++ [.memory sel],
      tried := failed }
  | none =>
    let att0 := memSels.map ClickStage.memory
    let save := fun (st : ClickStage) =>
      if host ≠ [] then
        SelectorMemory.save_success mem host (str "click") target
          (clickDescriptor target st) now
      else mem
    if pg.clickSel target then
      { outcome := .success .css, mem := save .css,
        attempted := att0 ++ [.css], tried := memSels }
    else if pg.clickRole target then
      { outcome := .success .role, mem := save .role,
        attempted := att0 ++ [.css, .role], tried := memSels }
    else
      match pg.semantic target with
      | some cand =>
        if pg.clickText cand then
          { outcome := .success (.semantic cand), mem := save (.semantic cand),
            attempted := att0 ++ [.css, .role, .semantic cand],
            tried := memSels }
        else if pg.clickText target then
          { outcome := .success .text, mem := save .text,
            attempted := att0 ++ [.css, .role, .semantic cand, .text],
            tried := memSels }
        else
          { outcome := .raised, mem := mem,
            attempted := att0 ++ [.css, .role, .semantic cand, .text],
            tried := memSels }
      | none =>
        if pg.clickText target then
          { outcome := .success .text, mem := save .text,
            attempted := att0 ++ [.css, .role, .text], tried := memSels }
        else
          { outcome := .raised, mem := mem,
            attempted := att0 ++ [.css, .role, .text], tried := memSels }

/-- The page behaviour `type_best` interacts with. Each fill attempt
receives the sanitized text alongside its locator. -/
structure TypePage where
  url : Str
  fillSel : Str → Str → Bool
  fillPlaceholder : Str → Str → Bool
  fillLabel : Str → Str → Bool
  semantic : Str → Option Str

/-- The resolution stages of `type_best`, in source order. -/
inductive TypeStage where
  | memory (sel : Str)
  | css
  | placeholder
  | label
  | semPlaceholder (cand : Str)
  | semLabel (cand : Str)
  deriving Repr, DecidableEq

/-- Is this a stage-1 (selector-memory) attempt? -/
def TypeStage.isMemory : TypeStage → Bool
  | .memory _ => true
  | _ => false

/-- How `type_best` returns: success at a stage, falling off the end of
the function with no stage having succeeded (Python returns `None`
exactly as on success), or the re-raised semantic-stage exception. -/
inductive TypeOutcome where
  | success (st : TypeStage)
  | fellThrough
  | raised
  deriving Repr, DecidableEq

/-- Result of a `type_best` call. -/
structure TypeResult where
  outcome : TypeOutcome
  mem : SelectorMemory
  attempted : List TypeStage
  tried : List Str
  deriving Repr, DecidableEq

/-- The descriptor string `type_best` records for a success at each
stage (stage 1 records nothing). -/
def typeDescriptor (field : Str) : TypeStage → Str
  | .memory sel => sel
  | .css => field
  | .placeholder => str "placeholder=" ++ field
  | .label => str "label=" ++ field
  | .semPlaceholder cand => str "semantic_placeholder=" ++ cand
  | .semLabel cand => str "semantic_label=" ++ cand

/-- `WebNavigator.type_best(field, text)` at wall-clock time `now`:
sanitizes the text, then memory selectors (up to 5) → CSS → placeholder
→ label → semantic candidate (placeholder, then label). A success at
stage ≥ 2 is recorded (when the host is non-empty). Only a failing
fill-by-label on a found semantic candidate re-raises; when every stage
fails and no semantic candidate exists, the function returns normally
(`fellThrough`). -/
def type_best (pg : TypePage) (mem : SelectorMemory) (field text : Str)
    (now : ℚ) : TypeResult :=
  let stext := sanitize_input text
  let host := hostOfPageUrl pg.url
  let memSels :=
    if host ≠ [] then (SelectorMemory.get mem host (str "type") field).take 5
    else []
  match firstSuccess (fun sel => pg.fillSel sel stext) memSels with
  | some (failed, sel) =>
    { outcome := .success (.memory sel), mem := mem,
      attempted := failed.map TypeStage.memory ++ [.memory sel],
      tried := failed }
  | none =>
    let att0 := memSels.map TypeStage.memory
    let save := fun (st : TypeStage) =>
      if host ≠ [] then
        SelectorMemory.save_success mem host (str "type") field
          (typeDescriptor field st) now
      else mem
    if pg.fillSel field stext then
      { outcome := .success .css, mem := save .css,
        attempted := att0 ++ [.css], tried := memSels }
    else if pg.fillPlaceholder field stext then
      { outcome := .success .placeholder, mem := save .placeholder,
        attempted := att0 ++ [.css, .placeholder], tried := memSels }
    else if pg.fillLabel field stext then
      { outcome := .success .label, mem := save .label,
        attempted := att0 ++ [.css, .placeholder, .label], tried := memSels }
    else
      match pg.semantic field with
      | some cand =>
        if pg.fillPlaceholder cand stext then
          { outcome := .success (.semPlaceholder cand),
            mem := save (.semPlaceholder cand),
            attempted := att0 ++ [.css, .placeholder, .label,
              .semPlaceholder cand],
            tried := memSels }
        else if pg.fillLabel cand stext then
          { outcome := .success (.semLabel cand),
            mem := save (.semLabel cand),
            attempted := att0 ++ [.css, .placeholder, .label,
              .semPlaceholder cand, .semLabel cand],
            tried := memSels }
        else
          { outcome := .raised, mem := mem,
            attempted := att0 ++ [.css, .placeholder, .label,
              .semPlaceholder cand, .semLabel cand],
            tried := memSels }
      | none =>
        { outcome := .fellThrough, mem := mem,
          attempted := att0 ++ [.css, .placeholder, .label],
          tried := memSels }

/-! ### `agentx/executor/browser_pool.py` -/

/-- A `PageHandle`: the page (an id in the model) and the slot index it
reports (`browser_idx`). -/
structure PageHandle where
  id : ℕ
  browser_idx : ℕ
  deriving Repr, DecidableEq

/-- `BrowserPool` state: per-slot FIFO queues of ready page ids (front
is the next `get`), the number of launched browsers, a fresh-id counter
for overflow pages, and the ids closed by `_release`. -/
structure PoolState where
  queues : List (List ℕ)
  nbrowsers : ℕ
  nextId : ℕ
  closed : List ℕ
  deriving Repr, DecidableEq

/-- `BrowserPool.start()` for `max_browsers` slots of
`max_pages_per_browser` pre-created pages each. -/
def PoolState.start (max_browsers max_pages : ℕ) : PoolState :=
  { queues := (List.range max_browsers).map
      (fun b => (List.range max_pages).map (fun p => b * max_pages + p)),
    nbrowsers := max_browsers,
    nextId := max_browsers * max_pages,
    closed := [] }

/-- The round-robin scan of `_acquire`: pop the first non-empty queue,
returning its slot index, the popped page and the new queue list. -/
def popFirst : List (List ℕ) → Option (ℕ × ℕ × List (List ℕ))
  | [] => none
  | q :: qs =>
    match q with
    | h :: t => some (0, h, t :: qs)
    | [] =>
      match popFirst qs with
      | some (i, h, qs') => some (i + 1, h, [] :: qs')
      | none => none

/-- `BrowserPool._acquire(timeout)`: scan the slots for an available
page; if every queue is empty, create a temporary overflow page on the
first browser (reported with `browser_idx = 0`); with no browsers at
all, raise (`none`). -/
def PoolState.acquire (st : PoolState) : Option (PageHandle × PoolState) :=
  match popFirst st.queues with
  | some (idx, h, qs') => some (⟨h, idx⟩, { st with queues := qs' })
  | none =>
    if st.nbrowsers ≠ 0 then
      some (⟨st.nextId, 0⟩, { st with nextId := st.nextId + 1 })
    else none

/-- `BrowserPool._release(handle)`: index the queue list with the
handle's `browser_idx` (an out-of-range index raises and the page is
closed); otherwise `q.put(..., block=False)` on the unbounded
`queue.Queue()` — which always succeeds — appends the page. -/
def PoolState.release (st : PoolState) (h : PageHandle) : PoolState :=
  if h.browser_idx < st.queues.length then
    let q := st.queues.getD h.browser_idx []
    { st with queues := st.queues.set h.browser_idx (q ++ [h.id]) }
  else { st with closed := st.closed ++ [h.id] }

/-- Exhaust a 1-browser × 1-page pool, acquire an overflow handle, then
release both handles. -/
def overflowScenario : Option PoolState :=
  (PoolState.start 1 1).acquire.bind fun p1 =>
    p1.2.acquire.bind fun p2 =>
      some ((p2.2.release p2.1).release p1.1)

/-! ### `agentx/memory/vector_store.py` -/

/-- `re.findall(r'[a-zA-Z0-9]+', text)`: the maximal alphanumeric runs,
via an explicit current-run accumulator. -/
def tokenizeAux : Str → Str → List Str
  | [], acc => if acc = [] then [] else [acc.reverse]
  | c :: rest, acc =>
    if c.isAlphanum then tokenizeAux rest (c :: acc)
    else if acc = [] then tokenizeAux rest []
    else acc.reverse :: tokenizeAux rest []

/-- The token list of a text (the regex applied to `text.lower()` is
taken by the caller). -/
def tokenize (s : Str) : List Str := tokenizeAux s []

/-- `SimpleVectorStore._hash(token)`:
`(hash(token) % self.dim + self.dim) % self.dim` for an arbitrary
platform `hash` (a signed integer). -/
def bucket (dim : ℕ) (hf : Str → ℤ) (t : Str) : ℕ :=
  ((hf t % (dim : ℤ) + (dim : ℤ)) % (dim : ℤ)).toNat

/-- The count-accumulation loop of `_embed`: `v[h] += 1.0` per token. -/
def addCounts (dim : ℕ) (hf : Str → ℤ) : List Str → (ℕ → ℝ) → ℕ → ℝ
  | [], v => v
  | t :: rest, v =>
    addCounts dim hf rest
      (fun i => if i = bucket dim hf t then v i + 1 else v i)

/-- The raw (un-normalized) hashed bag-of-words vector of a text. -/
def rawVec (dim : ℕ) (hf : Str → ℤ) (text : Str) : ℕ → ℝ :=
  addCounts dim hf (tokenize (lowerStr text)) (fun _ => 0)

/-- `sum(x*x for x in v)` over the `dim` buckets. -/
def sumSq (dim : ℕ) (v : ℕ → ℝ) : ℝ := ∑ i ∈ Finset.range dim, (v i) ^ 2

/-- `SimpleVectorStore._embed(text)`: hashed bag-of-words counts,
L2-normalized; `norm = math.sqrt(...) or 1.0` replaces a zero norm by
1. -/
noncomputable def embed (dim : ℕ) (hf : Str → ℤ) (text : Str) : ℕ → ℝ :=
  let v := rawVec dim hf text
  let norm := Real.sqrt (sumSq dim v)
  let norm1 := if norm = 0 then 1 else norm
  fun i => v i / norm1

/-- `sum(a*b for a,b in zip(q, v))` over the `dim` buckets. -/
def dotR (dim : ℕ) (a b : ℕ → ℝ) : ℝ := ∑ i ∈ Finset.range dim, a i * b i

/-- `SimpleVectorStore` state. -/
structure SimpleVectorStore where
  dim : ℕ
  hashFn : Str → ℤ
  docs : List Str
  vecs : List (ℕ → ℝ)

/-- `SimpleVectorStore(dim)`: empty store. -/
def SimpleVectorStore.empty (dim : ℕ) (hf : Str → ℤ) : SimpleVectorStore :=
  ⟨dim, hf, [], []⟩

/-- `add_texts(texts)`: append each text and its embedding. -/
noncomputable def SimpleVectorStore.add_texts (vs : SimpleVectorStore)
    (texts : List Str) : SimpleVectorStore :=
  { vs with
    docs := vs.docs ++ texts,
    vecs := vs.vecs ++ texts.map (embed vs.dim vs.hashFn) }

/-- The score list `[(i, dot(q, vecs[i]))]` built by `enumerate`. -/
noncomputable def SimpleVectorStore.scored (vs : SimpleVectorStore)
    (query : Str) : List (ℕ × ℝ) :=
  (vs.vecs.map (fun v => dotR vs.dim (embed vs.dim vs.hashFn query) v)).enum

/-- `scores.sort(key=lambda x: x[1], reverse=True)`: Python's stable
sort by score descending — an earlier entry precedes a later one with
the same score. -/
def scoreGE (a b : ℕ × ℝ) : Prop := b.2 ≤ a.2

noncomputable instance : DecidableRel scoreGE := fun _ _ =>
  Classical.propDecidable _

instance : IsTotal (ℕ × ℝ) scoreGE := ⟨fun a b => le_total b.2 a.2⟩

instance : IsTrans (ℕ × ℝ) scoreGE :=
  ⟨fun _ _ _ h1 h2 => le_trans h2 h1⟩

/-- The sorted score list. -/
noncomputable def SimpleVectorStore.rankedPairs (vs : SimpleVectorStore)
    (query : Str) : List (ℕ × ℝ) :=
  List.insertionSort scoreGE (vs.scored query)

/-- `similarity_search(query, k)`: the top `k` of the sorted score
list, as `(doc, score)` pairs. -/
noncomputable def SimpleVectorStore.similarity_search
    (vs : SimpleVectorStore) (query : Str) (k : ℕ) : List (Str × ℝ) :=
  ((vs.rankedPairs query).take k).map (fun p => (vs.docs.getD p.1 [], p.2))

/-- The claim's ranking order: score strictly descending, or equal
scores in insertion (index) order. -/
def RankedOrder (a b : ℕ × ℝ) : Prop :=
  b.2 < a.2 ∨ (a.2 = b.2 ∧ a.1 < b.1)

/-! ### Theorems -/

/-- `consume` in closed form: the boolean result compares the request
against the refilled count, the new count is the refilled count less
the request when granted. -/
lemma consume_eq (b : TokenBucket) (now req : ℚ) :
    b.consume now req =
      (decide (req ≤ b.refilledTokens now),
       { b with
         tokens := if req ≤ b.refilledTokens now
                   then b.refilledTokens now - req else b.refilledTokens now,
         last_refill := if 0 < (now - b.last_refill) * b.refill_rate
                        then now else b.last_refill }) := by
  unfold TokenBucket.consume TokenBucket.refilledTokens
  dsimp only
  by_cases h1 : 0 < (now - b.last_refill) * b.refill_rate <;>
    simp only [h1, if_true, if_false] <;>
    split_ifs with h2 <;> simp_all

/-- The lazily refilled count stays at or below capacity. -/
lemma refilled_le_cap (b : TokenBucket) (now : ℚ)
    (hb : b.tokens ≤ b.capacity) : b.refilledTokens now ≤ b.capacity := by
  unfold TokenBucket.refilledTokens
  dsimp only
  split_ifs
  · exact min_le_left _ _
  · exact hb

/-- One `consume` call never pushes the token count above capacity. -/
lemma consume_tokens_le (b : TokenBucket) (now req : ℚ)
    (hb : b.tokens ≤ b.capacity) (hreq : 0 ≤ req) :
    ((b.consume now req).2).tokens ≤ b.capacity := by
  rw [consume_eq]
  dsimp only
  split_ifs with h
  · linarith [refilled_le_cap b now hb]
  · exact refilled_le_cap b now hb

/-- `consume` leaves the capacity unchanged. -/
lemma consume_capacity (b : TokenBucket) (now req : ℚ) :
    ((b.consume now req).2).capacity = b.capacity := by
  rw [consume_eq]

/-- C5, part helper: the bucket after a `consume` call, characterised
through `refilledTokens`. -/
lemma consume_spec (b : TokenBucket) (now req : ℚ) :
    (req ≤ b.refilledTokens now →
      (b.consume now req).1 = true ∧
      ((b.consume now req).2).tokens = b.refilledTokens now - req) ∧
    (b.refilledTokens now < req →
      (b.consume now req).1 = false ∧
      ((b.consume now req).2).tokens = b.refilledTokens now) := by
  rw [consume_eq]
  constructor <;> intro h
  · simp [h]
  · simp [not_le.mpr h]

/-- A sequence of nonnegative consume calls keeps a bucket that starts
at or below capacity at or below capacity. -/
lemma consumeSeq_le (calls : List (ℚ × ℚ)) :
    ∀ b : TokenBucket, b.tokens ≤ b.capacity → (∀ c ∈ calls, 0 ≤ c.2) →
      (b.consumeSeq calls).tokens ≤ b.capacity := by
  induction calls with
  | nil => intro b hb _; exact hb
  | cons c rest ih =>
    obtain ⟨cnow, creq⟩ := c
    intro b hb hcalls
    have hc : (0 : ℚ) ≤ creq := hcalls (cnow, creq) (List.mem_cons_self _ rest)
    have h1 := consume_tokens_le b cnow creq hb hc
    have h2 := consume_capacity b cnow creq
    have h3 := ih ((b.consume cnow creq).2) (by rw [h2]; exact h1)
      (fun x hx => hcalls x (List.mem_cons_of_mem _ hx))
    rw [h2] at h3
    simpa [TokenBucket.consumeSeq] using h3

/-- C5: a consume request above the lazily-refilled token count returns
`false` and leaves the count at its refilled value; a request at most
the refilled count returns `true` and decrements by exactly the
request; and starting at or below capacity, no sequence of nonnegative
consume calls ever pushes the count above capacity. -/
theorem C5_token_bucket_consume (b : TokenBucket) (now req : ℚ)
    (calls : List (ℚ × ℚ)) (hb : b.tokens ≤ b.capacity)
    (hcalls : ∀ c ∈ calls, 0 ≤ c.2) :
    (b.refilledTokens now < req →
      (b.consume now req).1 = false ∧
      ((b.consume now req).2).tokens = b.refilledTokens now) ∧
    (req ≤ b.refilledTokens now →
      (b.consume now req).1 = true ∧
      ((b.consume now req).2).tokens = b.refilledTokens now - req) ∧
    (b.consumeSeq calls).tokens ≤ b.capacity :=
  ⟨(consume_spec b now req).2, (consume_spec b now req).1,
    consumeSeq_le calls b hb hcalls⟩

/-- C5 witness: a full bucket of capacity 10 at time 0 grants a request
of 3 and drops to 7 tokens; the singleton call sequence keeps the count
at or below capacity. -/
theorem C5_token_bucket_consume_witness :
    (TokenBucket.consume ⟨10, 10, 1, 0⟩ 0 3).1 = true ∧
    ((TokenBucket.consume ⟨10, 10, 1, 0⟩ 0 3).2).tokens = 10 - 3 ∧
    (TokenBucket.consumeSeq ⟨10, 10, 1, 0⟩ [(0, 3)]).tokens ≤ 10 := by
  have h := C5_token_bucket_consume ⟨10, 10, 1, 0⟩ 0 3 [(0, 3)]
    (by norm_num) (by intro c hc; simp at hc; simp [hc])
  have hr : TokenBucket.refilledTokens ⟨10, 10, 1, 0⟩ 0 = 10 := by
    unfold TokenBucket.refilledTokens; norm_num
  have h2 := h.2.1 (by rw [hr]; norm_num)
  exact ⟨h2.1, by rw [h2.2, hr], h.2.2⟩

/-- C1 counterexample: with allowlist `["example.com"]`, the host
`evilexample.com` is neither equal to the entry nor a dot-separated
sub-domain of it, yet `is_domain_allowed` accepts it (plain
`endswith`). -/
theorem C1_counterexample :
    (SecurityManager.is_domain_allowed
        ⟨[str "example.com"], 60, []⟩ (str "https://evilexample.com/") = true) ∧
    ¬(∃ d ∈ ([str "example.com"] : List Str),
        netloc (str "https://evilexample.com/") = d ∨
        ('.' :: d) <:+ netloc (str "https://evilexample.com/")) := by
  decide

/-- C1 as amended: `is_domain_allowed` accepts a URL iff its
`urlparse` netloc has some allowlist entry as a plain string suffix
(so equality and `.`-separated sub-domains are accepted, but so is any
host merely ending in the entry's characters); with an empty allowlist
every URL is rejected. -/
theorem C1_domain_allowlist (sm : SecurityManager) (url : Str) :
    (sm.is_domain_allowed url = true ↔
      ∃ d ∈ sm.allowed_domains, ∃ p : Str, netloc url = p ++ d) ∧
    (sm.allowed_domains = [] → sm.is_domain_allowed url = false) := by
  constructor
  · simp only [SecurityManager.is_domain_allowed, endswith, List.any_eq_true,
      decide_eq_true_eq, List.IsSuffix]
    exact ⟨fun ⟨d, hd, t, ht⟩ => ⟨d, hd, t, ht.symm⟩,
      fun ⟨d, hd, p, hp⟩ => ⟨d, hd, p, hp.symm⟩⟩
  · intro h
    simp [SecurityManager.is_domain_allowed, h]

/-- C1 witness: the empty allowlist denies `https://a.com/`, and
`sub.example.com` is accepted for entry `example.com` because it ends
in the entry's characters. -/
theorem C1_domain_allowlist_witness :
    (SecurityManager.is_domain_allowed ⟨[], 60, []⟩ (str "https://a.com/")
        = false) ∧
    (SecurityManager.is_domain_allowed ⟨[str "example.com"], 60, []⟩
        (str "https://sub.example.com/path") = true) := by
  refine ⟨(C1_domain_allowlist ⟨[], 60, []⟩ (str "https://a.com/")).2 rfl, ?_⟩
  exact (C1_domain_allowlist ⟨[str "example.com"], 60, []⟩
      (str "https://sub.example.com/path")).1.mpr
    ⟨str "example.com", by decide, str "sub.", by decide⟩

/-- C9: `PermissionManager.check` returns `true` for every action other
than `login`, `upload` and `off-allowlist`, whatever the policy. -/
theorem C9_permission_default_allow (policy : PermissionPolicy) (action : Str)
    (h1 : action ≠ str "login") (h2 : action ≠ str "upload")
    (h3 : action ≠ str "off-allowlist") :
    PermissionManager.check policy action = true := by
  simp [PermissionManager.check, h1, h2, h3]

/-- C9 witness: a deny-everything policy still allows the action
`navigate`. -/
theorem C9_permission_default_allow_witness :
    PermissionManager.check ⟨false, false, false, false⟩ (str "navigate")
      = true :=
  C9_permission_default_allow ⟨false, false, false, false⟩ (str "navigate")
    (by decide) (by decide) (by decide)

/-- `save_success` when some row matches: the first matching row (in
rowid order) is updated in place, everything else untouched. -/
lemma save_success_found (h a l s : Str) (now : ℚ) :
    ∀ m : SelectorMemory, (∃ r ∈ m, selTupleMatch h a l s r = true) →
      ∃ pre r post, m = pre ++ r :: post ∧ selTupleMatch h a l s r = true ∧
        (∀ r' ∈ pre, selTupleMatch h a l s r' = false) ∧
        SelectorMemory.save_success m h a l s now =
          pre ++ { r with success_count := r.success_count + 1,
                          updated := now } :: post := by
  intro m hm
  induction m with
  | nil => simp at hm
  | cons r0 rest ih =>
    by_cases h0 : selTupleMatch h a l s r0 = true
    · exact ⟨[], r0, rest, rfl, h0, by simp,
        by simp [SelectorMemory.save_success, h0]⟩
    · obtain ⟨r, hr, hrt⟩ := hm
      rcases List.mem_cons.mp hr with rfl | hr'
      · exact absurd hrt h0
      · obtain ⟨pre, r1, post, he, ht, hpre, hsave⟩ := ih ⟨r, hr', hrt⟩
        refine ⟨r0 :: pre, r1, post, by simp [he], ht, ?_, ?_⟩
        · intro r' hr''
          rcases List.mem_cons.mp hr'' with rfl | hr'''
          · exact Bool.eq_false_iff.mpr h0
          · exact hpre r' hr'''
        · simp [SelectorMemory.save_success, h0, hsave]

/-- `save_success` when no row matches: a fresh row with count 1 is
appended. -/
lemma save_success_notfound (h a l s : Str) (now : ℚ) :
    ∀ m : SelectorMemory, (∀ r ∈ m, selTupleMatch h a l s r = false) →
      SelectorMemory.save_success m h a l s now = m ++ [⟨h, a, l, s, 1, now⟩] := by
  intro m hm
  induction m with
  | nil => rfl
  | cons r0 rest ih =>
    have h0 : selTupleMatch h a l s r0 = false := hm r0 (by simp)
    simp [SelectorMemory.save_success, h0,
      ih (fun r hr => hm r (List.mem_cons_of_mem r0 hr))]

/-- C6: `get` returns the selector column of some permutation of the
matching rows that is sorted by success-count descending with ties
broken by last-updated descending; `save_success` on a present
(host, action, label, selector) tuple bumps the first matching row's
count by exactly 1 and refreshes its timestamp, leaving every other row
unchanged; on an absent tuple it appends a fresh row with count 1. -/
theorem C6_selector_memory_get_save (m : SelectorMemory) (h a l s : Str)
    (now : ℚ) :
    (∃ rs : List SelRecord,
        rs.Perm (m.filter (selKeyMatch h a l)) ∧ rs.Sorted SelBefore ∧
        SelectorMemory.get m h a l = rs.map SelRecord.selector) ∧
    ((∃ r ∈ m, selTupleMatch h a l s r = true) →
      ∃ pre r post, m = pre ++ r :: post ∧ selTupleMatch h a l s r = true ∧
        (∀ r' ∈ pre, selTupleMatch h a l s r' = false) ∧
        SelectorMemory.save_success m h a l s now =
          pre ++ { r with success_count := r.success_count + 1,
                          updated := now } :: post) ∧
    ((∀ r ∈ m, selTupleMatch h a l s r = false) →
      SelectorMemory.save_success m h a l s now = m ++ [⟨h, a, l, s, 1, now⟩]) :=
  ⟨⟨List.insertionSort SelBefore (m.filter (selKeyMatch h a l)),
      List.perm_insertionSort SelBefore _,
      List.sorted_insertionSort SelBefore _, rfl⟩,
    save_success_found h a l s now m,
    save_success_notfound h a l s now m⟩

/-- C6 witness: on a one-row store, the sorted permutation of the
matching rows underlying `get` exists, and `save_success` on an absent
tuple appends a fresh row with count 1. -/
theorem C6_selector_memory_get_save_witness :
    (∃ rs : List SelRecord,
        rs.Perm (List.filter (selKeyMatch (str "h") (str "click") (str "go"))
          [⟨str "h", str "click", str "go", str "#a", 2, 5⟩]) ∧
        rs.Sorted SelBefore ∧
        SelectorMemory.get [⟨str "h", str "click", str "go", str "#a", 2, 5⟩]
          (str "h") (str "click") (str "go") = rs.map SelRecord.selector) ∧
    SelectorMemory.save_success
        [⟨str "h", str "click", str "go", str "#a", 2, 5⟩]
        (str "h") (str "click") (str "go") (str "#b") 9 =
      [⟨str "h", str "click", str "go", str "#a", 2, 5⟩] ++
        [⟨str "h", str "click", str "go", str "#b", 1, 9⟩] := by
  have h := C6_selector_memory_get_save
    [⟨str "h", str "click", str "go", str "#a", 2, 5⟩]
    (str "h") (str "click") (str "go") (str "#b") 9
  exact ⟨h.1, h.2.2 (by decide)⟩

/-- Stepping the retry loop when the allowlist check fails: the body
raises `PermissionError` without touching the manager, and the loop
retries while attempts remain. -/
lemma gotoGo_perm_step (url : Str) (times : ℕ → ℚ) (navOk : ℕ → Bool)
    (rem i : ℕ) (sm : SecurityManager) (acc : ℕ)
    (h : sm.is_domain_allowed url = false) :
    gotoGo url times navOk (rem + 1) i sm acc =
      if rem = 0 then
        { result := .error .permission, sm := sm, attempts := i + 1,
          navCalls := acc }
      else gotoGo url times navOk rem (i + 1) sm acc := by
  conv_lhs => rw [gotoGo]
  simp [goto_once, h]

/-- C2 counterexample: with an empty allowlist (deny-all), a `goto`
call executes its body 3 times — the policy failure is retried, not
raised once — before the `PermissionError` surfaces; the browser
navigation itself is never reached. -/
theorem C2_counterexample :
    (WebNavigator.goto ⟨[], 60, []⟩ (str "https://a.com/") (fun i => (i : ℚ))
        (fun _ => true)).attempts = 3 ∧
    ¬((WebNavigator.goto ⟨[], 60, []⟩ (str "https://a.com/") (fun i => (i : ℚ))
        (fun _ => true)).attempts = 1) ∧
    (WebNavigator.goto ⟨[], 60, []⟩ (str "https://a.com/") (fun i => (i : ℚ))
        (fun _ => true)).result = .error .permission ∧
    (WebNavigator.goto ⟨[], 60, []⟩ (str "https://a.com/") (fun i => (i : ℚ))
        (fun _ => true)).navCalls = 0 := by
  decide

/-- `enforce_rate_limit` only rewrites the bucket map; the allowlist is
untouched. -/
lemma enforce_rate_limit_allowed_domains (sm : SecurityManager)
    (url : Str) (t : ℚ) :
    ((sm.enforce_rate_limit url t).2).allowed_domains = sm.allowed_domains := by
  unfold SecurityManager.enforce_rate_limit SecurityManager.putBucket
    SecurityManager.bucket_for
  dsimp only
  split <;> rfl

/-- Hence `is_domain_allowed` is invariant under `enforce_rate_limit`. -/
lemma enforce_rate_limit_is_domain_allowed (sm : SecurityManager)
    (url u2 : Str) (t : ℚ) :
    ((sm.enforce_rate_limit url t).2).is_domain_allowed u2
      = sm.is_domain_allowed u2 := by
  unfold SecurityManager.is_domain_allowed
  rw [enforce_rate_limit_allowed_domains]

/-- Stepping the retry loop when the allowlist passes but the rate
check fails: the body raises the rate-limit `RuntimeError` after
updating the bucket map, and the loop retries while attempts remain. -/
lemma gotoGo_rate_step (url : Str) (times : ℕ → ℚ) (navOk : ℕ → Bool)
    (rem i : ℕ) (sm : SecurityManager) (acc : ℕ)
    (hallow : sm.is_domain_allowed url = true)
    (hrate : (sm.enforce_rate_limit url (times i)).1 = false) :
    gotoGo url times navOk (rem + 1) i sm acc =
      if rem = 0 then
        { result := .error .rateLimit,
          sm := (sm.enforce_rate_limit url (times i)).2, attempts := i + 1,
          navCalls := acc }
      else gotoGo url times navOk rem (i + 1)
        (sm.enforce_rate_limit url (times i)).2 acc := by
  conv_lhs => rw [gotoGo]
  simp [goto_once, hallow, hrate]

/-- C2 as amended: the tenacity `retry` decorator wraps the security
checks together with the navigation, so a policy failure inside the
body is retried like a navigation failure. A `goto` whose URL fails the
allowlist re-runs the failing check on each of its 3 attempts and only
then re-raises the `PermissionError`, never invoking the browser
navigation and leaving the security state unchanged. For an allowed
URL, a rate-bucket failure is likewise retried: when the origin's rate
check fails at each of the three attempt times (lazy refill between
attempts can instead let a later attempt pass), `goto` runs all 3
attempts, re-raises the rate-limit `RuntimeError` after the third, and
never invokes the browser navigation, with the bucket state threaded
through the three failed consume attempts. -/
theorem C2_policy_failure_retried (sm : SecurityManager) (url : Str)
    (times : ℕ → ℚ) (navOk : ℕ → Bool) :
    (sm.is_domain_allowed url = false →
      WebNavigator.goto sm url times navOk =
        { result := .error .permission, sm := sm, attempts := 3,
          navCalls := 0 }) ∧
    (sm.is_domain_allowed url = true →
      (sm.enforce_rate_limit url (times 0)).1 = false →
      (((sm.enforce_rate_limit url (times 0)).2).enforce_rate_limit url
        (times 1)).1 = false →
      ((((sm.enforce_rate_limit url (times 0)).2).enforce_rate_limit url
        (times 1)).2.enforce_rate_limit url (times 2)).1 = false →
      WebNavigator.goto sm url times navOk =
        { result := .error .rateLimit,
          sm := ((((sm.enforce_rate_limit url (times 0)).2).enforce_rate_limit
            url (times 1)).2.enforce_rate_limit url (times 2)).2,
          attempts := 3, navCalls := 0 }) := by
  constructor
  · intro h
    unfold WebNavigator.goto
    rw [show (3 : ℕ) = 2 + 1 from rfl,
      gotoGo_perm_step url times navOk 2 0 sm 0 h]
    norm_num
    rw [show (2 : ℕ) = 1 + 1 from rfl,
      gotoGo_perm_step url times navOk 1 1 sm 0 h]
    norm_num
    rw [show (1 : ℕ) = 0 + 1 from rfl,
      gotoGo_perm_step url times navOk 0 2 sm 0 h]
    norm_num
  · intro hallow h0 h1 h2
    have hallow1 : ((sm.enforce_rate_limit url (times 0)).2).is_domain_allowed
        url = true := by
      rw [enforce_rate_limit_is_domain_allowed]
      exact hallow
    have hallow2 : (((sm.enforce_rate_limit url (times 0)).2).enforce_rate_limit
        url (times 1)).2.is_domain_allowed url = true := by
      rw [enforce_rate_limit_is_domain_allowed,
        enforce_rate_limit_is_domain_allowed]
      exact hallow
    unfold WebNavigator.goto
    rw [show (3 : ℕ) = 2 + 1 from rfl,
      gotoGo_rate_step url times navOk 2 0 sm 0 hallow h0]
    norm_num
    rw [show (2 : ℕ) = 1 + 1 from rfl,
      gotoGo_rate_step url times navOk 1 1 _ 0 hallow1 h1]
    norm_num
    rw [show (1 : ℕ) = 0 + 1 from rfl,
      gotoGo_rate_step url times navOk 0 2 _ 0 hallow2 h2]
    norm_num

/-- C2 witness: a deny-all manager retries the allowlist failure 3
times; an allowed origin whose bucket holds 0 tokens (no elapsed time,
so no refill) retries the rate failure 3 times, never reaching the
browser navigation. -/
theorem C2_policy_failure_retried_witness :
    WebNavigator.goto ⟨[], 30, []⟩ (str "https://b.org/") (fun i => (i : ℚ))
        (fun _ => false) =
      { result := .error .permission, sm := ⟨[], 30, []⟩, attempts := 3,
        navCalls := 0 } ∧
    (WebNavigator.goto
        ⟨[str "a.com"], 60, [(str "https://a.com", ⟨60, 0, 1, 0⟩)]⟩
        (str "https://a.com/") (fun _ => 0) (fun _ => true)).result
      = .error .rateLimit ∧
    (WebNavigator.goto
        ⟨[str "a.com"], 60, [(str "https://a.com", ⟨60, 0, 1, 0⟩)]⟩
        (str "https://a.com/") (fun _ => 0) (fun _ => true)).attempts = 3 ∧
    (WebNavigator.goto
        ⟨[str "a.com"], 60, [(str "https://a.com", ⟨60, 0, 1, 0⟩)]⟩
        (str "https://a.com/") (fun _ => 0) (fun _ => true)).navCalls = 0 := by
  have hperm := (C2_policy_failure_retried ⟨[], 30, []⟩ (str "https://b.org/")
    (fun i => (i : ℚ)) (fun _ => false)).1 (by decide)
  have h0 : ((⟨[str "a.com"], 60, [(str "https://a.com", ⟨60, 0, 1, 0⟩)]⟩ :
      SecurityManager).enforce_rate_limit (str "https://a.com/") 0).1
        = false := by
    simp +decide [SecurityManager.enforce_rate_limit,
      SecurityManager.bucket_for, SecurityManager.putBucket,
      TokenBucket.consume]
  have hst : ((⟨[str "a.com"], 60, [(str "https://a.com", ⟨60, 0, 1, 0⟩)]⟩ :
      SecurityManager).enforce_rate_limit (str "https://a.com/") 0).2
        = ⟨[str "a.com"], 60, [(str "https://a.com", ⟨60, 0, 1, 0⟩)]⟩ := by
    simp +decide [SecurityManager.enforce_rate_limit,
      SecurityManager.bucket_for, SecurityManager.putBucket,
      TokenBucket.consume]
  have hrate := (C2_policy_failure_retried
    ⟨[str "a.com"], 60, [(str "https://a.com", ⟨60, 0, 1, 0⟩)]⟩
    (str "https://a.com/") (fun _ => 0) (fun _ => true)).2
    (by decide) h0 (by rw [hst]; exact h0) (by rw [hst, hst]; exact h0)
  exact ⟨hperm, by rw [hrate], by rw [hrate], by rw [hrate]⟩

/-- The concrete orchestrator world for C3: step 1 raises, the planner
replans to a fresh two-step plan, no stop signal. -/
def replanWorld : OrchWorld :=
  { execute := fun s =>
      if s = str "step1" then .error (str "boom") else .ok (str "done2"),
    replanner := fun _ _ => [str "new1", str "new2"],
    snapshot := [],
    shouldStop := fun _ => false }

/-- C3: after step 1 fails and the planner returns the new plan
`[new1, new2]`, the loop keeps iterating the enumeration of the
original plan — it dispatches the old plan's step 2 next and never
executes the new plan's step 1, although the rebindable `plan` local
(returned in the result dict) now holds the new plan. -/
theorem C3_replan_not_resumed :
    (MultiAgentRunner.run replanWorld [str "step1", str "step2"]).executed
        = [str "step1", str "step2"] ∧
    (MultiAgentRunner.run replanWorld [str "step1", str "step2"]).planVar
        = [str "new1", str "new2"] ∧
    str "new1" ∉
      (MultiAgentRunner.run replanWorld [str "step1", str "step2"]).executed := by
  decide

/-- When every candidate fails the attempt predicate, `firstSuccess`
finds nothing. -/
lemma firstSuccess_none (f : Str → Bool) (hf : ∀ s, f s = false) :
    ∀ l, firstSuccess f l = none := by
  intro l
  induction l with
  | nil => rfl
  | cons s rest ih => simp [firstSuccess, hf, ih]

/-- C4 counterexample: on a page where every fill attempt fails and the
semantic resolver finds no candidate, `type_best` returns normally —
it does not raise, contradicting the claim that resolution exhaustion
always raises. -/
theorem C4_counterexample :
    (type_best ⟨[], fun _ _ => false, fun _ _ => false, fun _ _ => false,
        fun _ => none⟩ [] (str "q") (str "hello") 0).outcome
      = TypeOutcome.fellThrough ∧
    TypeOutcome.fellThrough ≠ TypeOutcome.raised := by
  decide

/-- C4 as amended: when every stage fails, `click_best` re-raises the
final text-stage exception (the failed memory descriptors are only
logged, not attached to it); `type_best` raises only when the semantic
resolver produced a candidate (whose placeholder and label fills then
failed) — when every stage fails and no semantic candidate exists it
returns normally without raising. -/
theorem C4_exhausted_raises (pgC : ClickPage) (memC : SelectorMemory)
    (target : Str) (nowC : ℚ) (pgT : TypePage) (memT : SelectorMemory)
    (field text : Str) (nowT : ℚ)
    (hsel : ∀ s, pgC.clickSel s = false)
    (hrole : pgC.clickRole target = false)
    (htext : ∀ s, pgC.clickText s = false)
    (hfs : ∀ s t, pgT.fillSel s t = false)
    (hfp : ∀ s t, pgT.fillPlaceholder s t = false)
    (hfl : ∀ s t, pgT.fillLabel s t = false) :
    (click_best pgC memC target nowC).outcome = ClickOutcome.raised ∧
    ((∃ c, pgT.semantic field = some c) →
      (type_best pgT memT field text nowT).outcome = TypeOutcome.raised) ∧
    (pgT.semantic field = none →
      (type_best pgT memT field text nowT).outcome = TypeOutcome.fellThrough) := by
  refine ⟨?_, ?_, ?_⟩
  · unfold click_best
    simp only [firstSuccess_none pgC.clickSel hsel]
    cases hsem : pgC.semantic target <;> simp [hsel, hrole, htext, hsem]
  · rintro ⟨c, hc⟩
    unfold type_best
    simp only [firstSuccess_none (fun sel => pgT.fillSel sel
      (sanitize_input text)) (fun s => hfs s _)]
    simp [hfs, hfp, hfl, hc]
  · intro hc
    unfold type_best
    simp only [firstSuccess_none (fun sel => pgT.fillSel sel
      (sanitize_input text)) (fun s => hfs s _)]
    simp [hfs, hfp, hfl, hc]

/-- C4 witness: concrete all-failing pages — the click chain raises,
the type chain raises when a semantic candidate exists and returns
normally when none does. -/
theorem C4_exhausted_raises_witness :
    (click_best ⟨[], fun _ => false, fun _ => false, fun _ => false,
        fun _ => none⟩ [] (str "t") 0).outcome = ClickOutcome.raised ∧
    (type_best ⟨[], fun _ _ => false, fun _ _ => false, fun _ _ => false,
        fun _ => some (str "c")⟩ [] (str "f") (str "x") 0).outcome
      = TypeOutcome.raised ∧
    (type_best ⟨[], fun _ _ => false, fun _ _ => false, fun _ _ => false,
        fun _ => none⟩ [] (str "f") (str "x") 0).outcome
      = TypeOutcome.fellThrough :=
  ⟨(C4_exhausted_raises ⟨[], fun _ => false, fun _ => false, fun _ => false,
      fun _ => none⟩ [] (str "t") 0
      ⟨[], fun _ _ => false, fun _ _ => false, fun _ _ => false,
        fun _ => none⟩ [] (str "f") (str "x") 0
      (fun _ => rfl) rfl (fun _ => rfl) (fun _ _ => rfl) (fun _ _ => rfl)
      (fun _ _ => rfl)).1,
    (C4_exhausted_raises ⟨[], fun _ => false, fun _ => false, fun _ => false,
      fun _ => none⟩ [] (str "t") 0
      ⟨[], fun _ _ => false, fun _ _ => false, fun _ _ => false,
        fun _ => some (str "c")⟩ [] (str "f") (str "x") 0
      (fun _ => rfl) rfl (fun _ => rfl) (fun _ _ => rfl) (fun _ _ => rfl)
      (fun _ _ => rfl)).2.1 ⟨str "c", rfl⟩,
    (C4_exhausted_raises ⟨[], fun _ => false, fun _ => false, fun _ => false,
      fun _ => none⟩ [] (str "t") 0
      ⟨[], fun _ _ => false, fun _ _ => false, fun _ _ => false,
        fun _ => none⟩ [] (str "f") (str "x") 0
      (fun _ => rfl) rfl (fun _ => rfl) (fun _ _ => rfl) (fun _ _ => rfl)
      (fun _ _ => rfl)).2.2 rfl⟩

/-- C7: with a non-empty page host, a `click_best` or `type_best`
success at stage 1 (a selector-memory descriptor) leaves the selector
store unchanged and performs no attempt beyond memory attempts, while a
success at any later stage writes exactly that stage's descriptor for
the target into the store. -/
theorem C7_memory_hit_no_write (pg : ClickPage) (mem : SelectorMemory)
    (target : Str) (now : ℚ) (pgT : TypePage) (memT : SelectorMemory)
    (field text : Str) (nowT : ℚ)
    (hhost : hostOfPageUrl pg.url ≠ [])
    (hhostT : hostOfPageUrl pgT.url ≠ []) :
    (∀ sel, (click_best pg mem target now).outcome
        = ClickOutcome.success (.memory sel) →
      (click_best pg mem target now).mem = mem ∧
      ∀ st ∈ (click_best pg mem target now).attempted, st.isMemory = true) ∧
    (∀ st, (click_best pg mem target now).outcome = ClickOutcome.success st →
      st.isMemory = false →
      (click_best pg mem target now).mem =
        SelectorMemory.save_success mem (hostOfPageUrl pg.url) (str "click")
          target (clickDescriptor target st) now) ∧
    (∀ sel, (type_best pgT memT field text nowT).outcome
        = TypeOutcome.success (.memory sel) →
      (type_best pgT memT field text nowT).mem = memT ∧
      ∀ st ∈ (type_best pgT memT field text nowT).attempted,
        st.isMemory = true) ∧
    (∀ st, (type_best pgT memT field text nowT).outcome
        = TypeOutcome.success st →
      st.isMemory = false →
      (type_best pgT memT field text nowT).mem =
        SelectorMemory.save_success memT (hostOfPageUrl pgT.url) (str "type")
          field (typeDescriptor field st) nowT) := by
  refine ⟨?_, ?_, ?_, ?_⟩
  · intro sel hout
    unfold click_best at *
    simp only [ne_eq, hhost, not_false_eq_true, if_true] at *
    rcases hfs : firstSuccess pg.clickSel
        ((SelectorMemory.get mem (hostOfPageUrl pg.url) (str "click")
          target).take 5) with _ | ⟨failed, s⟩
    · dsimp only at hout ⊢
      cases hsem : pg.semantic target <;>
        simp only [hsem] at hout ⊢ <;> split_ifs at hout <;> simp_all
    · dsimp only at hout ⊢
      refine ⟨rfl, ?_⟩
      intro st hst
      simp only [List.mem_append, List.mem_map, List.mem_singleton] at hst
      rcases hst with ⟨x, _, rfl⟩ | rfl <;> rfl
  · intro st hout hmem
    unfold click_best at *
    simp only [ne_eq, hhost, not_false_eq_true, if_true] at *
    rcases hfs : firstSuccess pg.clickSel
        ((SelectorMemory.get mem (hostOfPageUrl pg.url) (str "click")
          target).take 5) with _ | ⟨failed, s⟩
    · dsimp only at hout ⊢
      cases hsem : pg.semantic target <;>
        simp only [hsem] at hout ⊢ <;> split_ifs at hout <;>
          simp_all [ClickStage.isMemory]
    · rw [hfs] at hout
      dsimp only at hout
      injection hout with h6
      subst h6
      simp [ClickStage.isMemory] at hmem
  · intro sel hout
    unfold type_best at *
    simp only [ne_eq, hhostT, not_false_eq_true, if_true] at *
    rcases hfs : firstSuccess (fun s => pgT.fillSel s (sanitize_input text))
        ((SelectorMemory.get memT (hostOfPageUrl pgT.url) (str "type")
          field).take 5) with _ | ⟨failed, s⟩
    · dsimp only at hout ⊢
      cases hsem : pgT.semantic field <;>
        simp only [hsem] at hout ⊢ <;> split_ifs at hout <;> simp_all
    · dsimp only at hout ⊢
      refine ⟨rfl, ?_⟩
      intro st hst
      simp only [List.mem_append, List.mem_map, List.mem_singleton] at hst
      rcases hst with ⟨x, _, rfl⟩ | rfl <;> rfl
  · intro st hout hmem
    unfold type_best at *
    simp only [ne_eq, hhostT, not_false_eq_true, if_true] at *
    rcases hfs : firstSuccess (fun s => pgT.fillSel s (sanitize_input text))
        ((SelectorMemory.get memT (hostOfPageUrl pgT.url) (str "type")
          field).take 5) with _ | ⟨failed, s⟩
    · dsimp only at hout ⊢
      cases hsem : pgT.semantic field <;>
        simp only [hsem] at hout ⊢ <;> split_ifs at hout <;>
          simp_all [TypeStage.isMemory]
    · rw [hfs] at hout
      dsimp only at hout
      injection hout with h6
      subst h6
      simp [TypeStage.isMemory] at hmem

/-- C7 witness: a stored selector that works leaves the store unchanged
and only memory attempts happen; a placeholder-stage success writes the
placeholder descriptor. -/
theorem C7_memory_hit_no_write_witness :
    ((click_best
        ⟨str "https://h/x", fun s => s = str "#m", fun _ => false,
          fun _ => false, fun _ => none⟩
        [⟨str "h", str "click", str "t", str "#m", 1, 0⟩] (str "t") 3).mem
      = [⟨str "h", str "click", str "t", str "#m", 1, 0⟩] ∧
      ∀ st ∈ (click_best
        ⟨str "https://h/x", fun s => s = str "#m", fun _ => false,
          fun _ => false, fun _ => none⟩
        [⟨str "h", str "click", str "t", str "#m", 1, 0⟩] (str "t") 3).attempted,
        st.isMemory = true) ∧
    (type_best
        ⟨str "https://h/x", fun _ _ => false, fun s _ => s = str "f",
          fun _ _ => false, fun _ => none⟩ [] (str "f") (str "x") 7).mem
      = SelectorMemory.save_success [] (str "h") (str "type") (str "f")
          (typeDescriptor (str "f") TypeStage.placeholder) 7 := by
  have h := C7_memory_hit_no_write
    ⟨str "https://h/x", fun s => s = str "#m", fun _ => false,
      fun _ => false, fun _ => none⟩
    [⟨str "h", str "click", str "t", str "#m", 1, 0⟩] (str "t") 3
    ⟨str "https://h/x", fun _ _ => false, fun s _ => s = str "f",
      fun _ _ => false, fun _ => none⟩ [] (str "f") (str "x") 7
    (by decide) (by decide)
  refine ⟨h.1 (str "#m") (by decide), ?_⟩
  have h4 := h.2.2.2 TypeStage.placeholder (by decide) (by decide)
  simpa using h4

/-- C10: a release whose slot index is within the queue list always
re-queues the handle — nothing is closed, the slot's queue grows by the
released id at the back, and every other slot is untouched; and the
1×1 pool scenario (drain, overflow-acquire, release both) ends with 2
pooled pages in slot 0 — above `max_pages_per_browser = 1` — and
nothing closed. -/
theorem C10_release_unbounded_requeue (st : PoolState) (h : PageHandle)
    (hidx : h.browser_idx < st.queues.length) :
    ((st.release h).closed = st.closed ∧
     (st.release h).queues.length = st.queues.length ∧
     (st.release h).queues[h.browser_idx]? =
       some (st.queues.getD h.browser_idx [] ++ [h.id]) ∧
     ∀ j, j ≠ h.browser_idx → (st.release h).queues[j]? = st.queues[j]?) ∧
    (∃ fin : PoolState, overflowScenario = some fin ∧
       fin.queues.getD 0 [] = [1, 0] ∧ (fin.queues.getD 0 []).length = 2 ∧
       fin.closed = [] ∧ 2 > 1) := by
  refine ⟨⟨?_, ?_, ?_, ?_⟩, ?_⟩
  · simp [PoolState.release, hidx]
  · simp [PoolState.release, hidx]
  · simp only [PoolState.release, hidx, if_true]
    exact List.getElem?_set_eq_of_lt _ hidx
  · intro j hj
    simp [PoolState.release, hidx, List.getElem?_set, Ne.symm hj]
  · exact ⟨⟨[[1, 0]], 1, 2, []⟩, by decide⟩

/-- C10 witness: releasing a handle into slot 1 of a started 2×1 pool
closes nothing and appends its id to that slot's queue. -/
theorem C10_release_unbounded_requeue_witness :
    ((PoolState.start 2 1).release ⟨5, 1⟩).closed = [] ∧
    ((PoolState.start 2 1).release ⟨5, 1⟩).queues[1]? = some ([1] ++ [5]) := by
  have hh := C10_release_unbounded_requeue (PoolState.start 2 1) ⟨5, 1⟩
    (by decide)
  exact ⟨hh.1.1, by simpa using hh.1.2.2.1⟩

/-- The enumerated score list has strictly increasing indices. -/
lemma pairwise_fst_lt_enum {α : Type} (l : List α) :
    l.enum.Pairwise (fun a b => a.1 < b.1) := by
  rw [List.pairwise_iff_getElem]
  intro i j hi hj hij
  simp only [List.enum_length] at hi hj
  simp only [List.getElem_enum]
  exact hij

/-- `RankedOrder` implies the weak score comparison. -/
lemma ranked_score_le {a b : ℕ × ℝ} (h : RankedOrder a b) : b.2 ≤ a.2 := by
  rcases h with h | ⟨h, _⟩
  · exact le_of_lt h
  · exact le_of_eq h.symm

/-- Inserting an element whose index is below every index in a
`RankedOrder`-sorted list (Python's stable sort inserts the
earlier-indexed element before its score ties) keeps the list
`RankedOrder`-sorted. -/
lemma pairwise_orderedInsert_ranked (x : ℕ × ℝ) :
    ∀ l : List (ℕ × ℝ), l.Pairwise RankedOrder → (∀ y ∈ l, x.1 < y.1) →
      (List.orderedInsert scoreGE x l).Pairwise RankedOrder := by
  intro l
  induction l with
  | nil => intro _ _; simp
  | cons y ys ih =>
    intro hl hx
    by_cases hr : scoreGE x y
    · simp only [List.orderedInsert, if_pos hr]
      rw [List.pairwise_cons]
      refine ⟨?_, hl⟩
      intro z hz
      have hz2 : z.2 ≤ x.2 := by
        rcases List.mem_cons.mp hz with rfl | hz'
        · exact hr
        · exact le_trans (ranked_score_le ((List.pairwise_cons.mp hl).1 z hz')) hr
      rcases lt_or_eq_of_le hz2 with h9 | h9
      · exact Or.inl h9
      · exact Or.inr ⟨h9.symm, hx z hz⟩
    · simp only [List.orderedInsert, if_neg hr]
      rw [List.pairwise_cons]
      constructor
      · intro z hz
        rcases (List.mem_orderedInsert scoreGE).mp hz with rfl | hz'
        · exact Or.inl (not_le.mp hr)
        · exact (List.pairwise_cons.mp hl).1 z hz'
      · exact ih (List.pairwise_cons.mp hl).2
          (fun y' hy' => hx y' (List.mem_cons_of_mem _ hy'))

/-- Python's stable descending sort of an index-increasing score list
is sorted by score descending with ties in index order. -/
lemma pairwise_insertionSort_ranked :
    ∀ l : List (ℕ × ℝ), l.Pairwise (fun a b => a.1 < b.1) →
      (List.insertionSort scoreGE l).Pairwise RankedOrder := by
  intro l
  induction l with
  | nil => intro _; simp
  | cons x xs ih =>
    intro hl
    simp only [List.insertionSort]
    apply pairwise_orderedInsert_ranked
    · exact ih (List.pairwise_cons.mp hl).2
    · intro y hy
      exact (List.pairwise_cons.mp hl).1 y
        ((List.perm_insertionSort scoreGE xs).subset hy)

/-- C8: on a store indexing `texts`, `similarity_search(query, k)`
returns `min k |texts|` results; the underlying ranked pair list is
sorted by score strictly descending with score ties in insertion-index
order; every returned pair's score is at least every non-returned
pair's score; and each returned pair carries the dot product of the
L2-normalized hashed bag-of-words embeddings of the query and of the
indexed text it names. -/
theorem C8_similarity_search_topk (dim : ℕ) (hf : Str → ℤ)
    (texts : List Str) (query : Str) (k : ℕ) :
    let vs := (SimpleVectorStore.empty dim hf).add_texts texts
    (vs.similarity_search query k).length = min k texts.length ∧
    ((vs.rankedPairs query).take k).Pairwise RankedOrder ∧
    (∀ p ∈ (vs.rankedPairs query).take k,
      ∀ q ∈ (vs.rankedPairs query).drop k, q.2 ≤ p.2) ∧
    (∀ p ∈ (vs.rankedPairs query).take k,
      ∃ v, vs.vecs[p.1]? = some v ∧
        p.2 = dotR dim (embed dim hf query) v ∧
        vs.docs = texts) := by
  intro vs
  have hlen : (vs.rankedPairs query).length = texts.length := by
    simp [SimpleVectorStore.rankedPairs, List.length_insertionSort,
      SimpleVectorStore.scored, SimpleVectorStore.add_texts,
      SimpleVectorStore.empty, vs]
  have hp : (vs.rankedPairs query).Pairwise RankedOrder :=
    pairwise_insertionSort_ranked _ (pairwise_fst_lt_enum _)
  refine ⟨?_, ?_, ?_, ?_⟩
  · simp [SimpleVectorStore.similarity_search, hlen]
  · exact List.Pairwise.sublist (List.take_sublist k _) hp
  · have hsplit := List.take_append_drop k (vs.rankedPairs query)
    rw [← hsplit] at hp
    intro p hp' q hq'
    exact ranked_score_le ((List.pairwise_append.mp hp).2.2 p hp' q hq')
  · intro p hp'
    have hmem : p ∈ vs.rankedPairs query := List.mem_of_mem_take hp'
    have hmem2 : p ∈ vs.scored query :=
      (List.perm_insertionSort scoreGE _).subset hmem
    unfold SimpleVectorStore.scored at hmem2
    rw [List.mem_enum_iff_getElem?, List.getElem?_map] at hmem2
    obtain ⟨v, hv, hfv⟩ := Option.map_eq_some'.mp hmem2
    exact ⟨v, hv, hfv.symm, by
      simp [SimpleVectorStore.add_texts, SimpleVectorStore.empty, vs]⟩

end AgentX
